import Mathlib

/- A shallow embedding of the SmartBetting probability pipeline
   (src/analysis_utils.py, src/parsing_utils.py, src/main.py).

   The pipeline is modelled per game: every quote in a given list belongs
   to one game, which matches the per (home, away) grouping used by the
   source.  Probabilities are exact rationals on the regulation-time path;
   the overtime path, where the source multiplies by the Poisson pmf, is
   modelled over the real numbers.  A Python runtime error raised during
   odds conversion (division by zero on zero odds) is modelled by the
   converter returning none. -/

namespace SmartBetting

/-- Winner labels as produced in the winner column of the games frame. -/
inductive Winner where
  | home
  | away
  | draw
deriving DecidableEq

/-- One parsed quote: one exact result of one game together with its
decimal odds, as produced by parse_single_odds.  Goals are -1 on the
sentinel row meaning any other score. -/
structure Quote where
  home_goals : Int
  away_goals : Int
  odds : ℚ
deriving DecidableEq

/-- One row of the prepared games frame: a quote with the derived columns
added by add basic cols plus the implied probability column. -/
structure PRow where
  home_goals : Int
  away_goals : Int
  odds : ℚ
  goals_diff : Int
  num_goals : Int
  winner : Option Winner
  is_draw : Bool
  prob : ℚ
deriving DecidableEq

/-- The nested np.where chain computing the winner column:
home when goals_diff is positive, away when negative, draw when the
difference is zero and home_goals is nonnegative, and None otherwise. -/
def winnerOf (hg ag : Int) : Option Winner :=
  if 0 < hg - ag then some Winner.home
  else if hg - ag < 0 then some Winner.away
  else if 0 ≤ hg then some Winner.draw
  else none

/-- One row of add basic cols to games df applied to a quote, with the
probability column already attached. -/
def mkPRow (q : Quote) (p : ℚ) : PRow :=
  { home_goals := q.home_goals
    away_goals := q.away_goals
    odds := q.odds
    goals_diff := q.home_goals - q.away_goals
    num_goals := q.home_goals + q.away_goals
    winner := winnerOf q.home_goals q.away_goals
    is_draw := decide (winnerOf q.home_goals q.away_goals = some Winner.draw)
    prob := p }

/-- The validity filter of prepare_games_df: keep rows with odds >= 0.0. -/
def filterValid (qs : List Quote) : List Quote :=
  qs.filter (fun q => decide (0 ≤ q.odds))

/-- The body of NaiveOddsProbsConverter.odds_to_probs: invert every odds
value and normalize by the sum of the inverses. -/
def naiveProbs (odds : List ℚ) : List ℚ :=
  (odds.map fun x => 1 / x).map fun y => y / (odds.map fun x => 1 / x).sum

/-- NaiveOddsProbsConverter.odds_to_probs with the Python runtime errors
made explicit: a zero odds value makes 1 / x raise, and a zero inverse sum
makes the normalizing division raise when the list is nonempty. -/
def naive_odds_to_probs (odds : List ℚ) : Option (List ℚ) :=
  if odds.any (fun x => decide (x = 0)) then none
  else if odds ≠ [] ∧ (odds.map fun x => 1 / x).sum = 0 then none
  else some (naiveProbs odds)

/-- prepare_games_df restricted to one game, on the apply_ot_adj = False
branch: filter out negative odds, add the derived columns and attach the
naive implied probabilities positionally (groupby transform alignment). -/
def prepare_games_df (qs : List Quote) : Option (List PRow) :=
  (naive_odds_to_probs ((filterValid qs).map Quote.odds)).map
    (fun ps => List.zipWith mkPRow (filterValid qs) ps)

/-- Pandas object equality on the winner column: a missing label (None)
compares unequal to everything, including another missing label. -/
def winnerEq (a b : Option Winner) : Bool :=
  match a, b with
  | some x, some y => decide (x = y)
  | _, _ => false

/-- The np.where chain of analyze_games_df assigning points to a pair of
a candidate bet row and a real outcome row. -/
def pointsFor (ppe ppd ppw : ℚ) (b r : PRow) : ℚ :=
  if b.home_goals = r.home_goals ∧ b.away_goals = r.away_goals then ppe
  else if b.goals_diff = r.goals_diff then ppd
  else if winnerEq b.winner r.winner then ppw
  else 0

/-- One row of the cross join produced by analyze_games_df. -/
structure CrossRow where
  bet : PRow
  real : PRow
  points : ℚ
  points_EV : ℚ
deriving DecidableEq

/-- analyze_games_df restricted to one game: the full cross join of
candidate bets and real outcomes with points and EV contribution. -/
def analyze_games_df (rows : List PRow) (ppe ppd ppw : ℚ) : List CrossRow :=
  rows.flatMap (fun b => rows.map (fun r =>
    { bet := b
      real := r
      points := pointsFor ppe ppd ppw b r
      points_EV := pointsFor ppe ppd ppw b r * r.prob }))

/- The overtime adjustment branch (apply_ot_adj = True) of
prepare_games_df, modelled per game over the real numbers. -/

/-- Distinct keys in order of first occurrence: the key set produced by a
pandas groupby (the sort order of the keys does not matter downstream,
only key lookup and summation do). -/
def dedupFirst {α : Type} [DecidableEq α] : List α → List α
  | [] => []
  | a :: as => a :: (dedupFirst as).filter (fun x => decide (x ≠ a))

/-- Maximum of a list of integers, as pandas max over a nonempty group. -/
def listMax : List Int → Int
  | [] => 0
  | a :: as => as.foldl max a

/-- Aggregated probability of one total-goals value within a game. -/
def groupProb (rows : List PRow) (n : Int) : ℚ :=
  ((rows.filter (fun r => decide (r.num_goals = n))).map PRow.prob).sum

/-- The total-goals distribution of a game: groupby num_goals, sum prob. -/
def numGoalsDist (rows : List PRow) : List (Int × ℚ) :=
  (dedupFirst (rows.map PRow.num_goals)).map (fun n => (n, groupProb rows n))

/-- Maximum quoted total-goals value of a game. -/
def maxNumGoals (rows : List PRow) : Int :=
  listMax (rows.map PRow.num_goals)

/-- The np.where overwriting the artificial negative total of the other
result bucket with the maximum total plus one. -/
def adjustKey (m k : Int) : Int :=
  if k < 0 then m + 1 else k

/-- The total-goals distribution after the sentinel bucket rewrite. -/
def numGoalsDistAdj (rows : List PRow) : List (Int × ℚ) :=
  (numGoalsDist rows).map (fun e => (adjustKey (maxNumGoals rows) e.1, e.2))

/-- Expected total goals in regulation time: the Poisson rate lambda
fitted per game (the ev_num_goals_ft column). -/
def lambdaFT (rows : List PRow) : ℚ :=
  ((numGoalsDistAdj rows).map (fun e => (e.1 : ℚ) * e.2)).sum

/-- The overtime Poisson rate: one third of the regulation rate. -/
def lambdaOT (rows : List PRow) : ℚ :=
  lambdaFT rows / 3

/-- The Poisson probability mass function as used via scipy:
zero at negative counts, exp of minus the rate times rate to the count
over count factorial otherwise. -/
noncomputable def poissonPmf (k : Int) (mu : ℝ) : ℝ :=
  if k < 0 then 0
  else Real.exp (-mu) * mu ^ k.toNat / (Nat.factorial k.toNat)

/-- One row of df_ot: a possible overtime-only exact result with its
probability, or none where the left merge found no total-goals bucket and
the arithmetic on the missing value produced NaN. -/
structure OtRow where
  home_goals : Int
  away_goals : Int
  prob : Option ℝ

/-- df_ot: every quoted result reinterpreted as an overtime result; its
probability is the quoted probability times the overtime Poisson pmf at
its total-goals value divided by the aggregated probability of that
total-goals bucket (the merged prob_num_goals column). -/
noncomputable def otRows (rows : List PRow) : List OtRow :=
  rows.flatMap (fun r =>
    let es := (numGoalsDistAdj rows).filter (fun e => decide (e.1 = r.num_goals))
    if es.isEmpty then [⟨r.home_goals, r.away_goals, none⟩]
    else es.map (fun e => ⟨r.home_goals, r.away_goals,
      some ((r.prob : ℝ) * poissonPmf e.1 ((lambdaOT rows : ℚ) : ℝ) /
        ((e.2 : ℚ) : ℝ))⟩))

/-- One row of df_ft_ot: a combined regulation plus overtime scoreline
with its path probability (none where NaN propagated). -/
structure FtOtRow where
  home_goals : Int
  away_goals : Int
  prob : Option ℝ

/-- df_ft_ot: the left merge on is_draw.  Every drawn regulation row is
paired with every overtime row, adding goals and multiplying
probabilities; non-draw rows pass through with original scoreline and
probability. -/
noncomputable def ftOtRows (rows : List PRow) : List FtOtRow :=
  rows.flatMap (fun b =>
    if b.is_draw then
      (otRows rows).map (fun o =>
        ⟨b.home_goals + o.home_goals, b.away_goals + o.away_goals,
          o.prob.map (fun x => (b.prob : ℝ) * x)⟩)
    else [⟨b.home_goals, b.away_goals, some (b.prob : ℝ)⟩])

/-- The block of combined rows one candidate regulation row contributes
to df_ft_ot. -/
noncomputable def ftOtPaths (rows : List PRow) (c : PRow) : List FtOtRow :=
  if c.is_draw then
    (otRows rows).map (fun o =>
      ⟨c.home_goals + o.home_goals, c.away_goals + o.away_goals,
        o.prob.map (fun x => (c.prob : ℝ) * x)⟩)
  else [⟨c.home_goals, c.away_goals, some (c.prob : ℝ)⟩]

/-- Pandas sum over a column that may hold NaN: missing values are
skipped and an all-missing group sums to zero. -/
noncomputable def sumOpt (l : List (Option ℝ)) : ℝ :=
  (l.filterMap id).sum

/-- The aggregated probability df_ft_ot_agg assigns to one combined
scoreline: the sum of all path probabilities reaching it. -/
noncomputable def aggProbAt (rows : List PRow) (k : Int × Int) : ℝ :=
  sumOpt (((ftOtRows rows).filter (fun r =>
    decide (r.home_goals = k.1 ∧ r.away_goals = k.2))).map FtOtRow.prob)

/-- df_ft_ot_agg: group the combined rows by final scoreline and sum the
path probabilities. -/
noncomputable def ftOtAgg (rows : List PRow) : List (Int × Int × ℝ) :=
  (dedupFirst ((ftOtRows rows).map (fun r => (r.home_goals, r.away_goals)))).map
    (fun k => (k.1, k.2, aggProbAt rows k))

/-- The final left merge of the aggregated combined results back onto the
quoted rows of the game: a scoreline matching several quoted rows is
duplicated per match, an unquoted scoreline is kept once. -/
noncomputable def otFinal (rows : List PRow) : List (Int × Int × ℝ) :=
  (ftOtAgg rows).flatMap (fun a =>
    let rs := rows.filter (fun r =>
      decide (r.home_goals = a.1 ∧ r.away_goals = a.2.1))
    if rs.isEmpty then [a] else rs.map (fun _ => a))

/-- prepare_games_df restricted to one game on the apply_ot_adj = True
branch: prepare the base frame, then decompose into regulation plus
overtime scorelines.  The output is the final scoreline and probability
per row. -/
noncomputable def prepare_games_df_ot (qs : List Quote) :
    Option (List (Int × Int × ℝ)) :=
  (prepare_games_df qs).map otFinal

/-- The total probability mass a game carries after the overtime
adjustment. -/
noncomputable def ot_prob_sum (qs : List Quote) : ℝ :=
  (((prepare_games_df_ot qs).getD []).map (fun r => r.2.2)).sum

/-- Modelled from the spec: the probability contribution that section 4.3
step 4 prescribes for one combined path, namely the regulation result
probability times the overtime Poisson pmf at the overtime goal count
divided by the regulation Poisson pmf at the regulation goal count. -/
noncomputable def spec_ot_path_contribution (pReg : ℝ) (otGoals regGoals : Int)
    (lamOT lamFT : ℝ) : ℝ :=
  pReg * poissonPmf otGoals lamOT / poissonPmf regGoals lamFT

/-- A concrete two-quote game used throughout: 0 to 0 at odds 2 and
1 to 0 at odds 2, one single market. -/
def gameQuotes : List Quote := [⟨0, 0, 2⟩, ⟨1, 0, 2⟩]

/-- The prepared rows of gameQuotes: both results get probability 1/2. -/
def gameRows : List PRow :=
  [⟨0, 0, 2, 0, 0, some Winner.draw, true, 1/2⟩,
   ⟨1, 0, 2, 1, 1, some Winner.home, false, 1/2⟩]

/-- A second concrete game without a 0 to 0 quote: 1 to 1 at odds 2 and
1 to 0 at odds 2. -/
def gameRowsB : List PRow :=
  [⟨1, 1, 2, 0, 2, some Winner.draw, true, 1/2⟩,
   ⟨1, 0, 2, 1, 1, some Winner.home, false, 1/2⟩]

/- Helper lemmas. -/

theorem map_prob_zipWith (as : List Quote) (bs : List ℚ)
    (h : as.length = bs.length) :
    (List.zipWith mkPRow as bs).map PRow.prob = bs := by
  induction as generalizing bs with
  | nil =>
    cases bs with
    | nil => rfl
    | cons b bs => simp at h
  | cons a as ih =>
    cases bs with
    | nil => simp at h
    | cons b bs =>
      simp only [List.zipWith_cons_cons, List.map_cons, List.cons.injEq]
      exact ⟨rfl, ih bs (by simpa using h)⟩

theorem sum_map_div (l : List ℚ) (c : ℚ) :
    (l.map fun x => x / c).sum = l.sum / c := by
  induction l with
  | nil => simp
  | cons a l ih => simp [ih, add_div]

theorem naiveProbs_length (odds : List ℚ) :
    (naiveProbs odds).length = odds.length := by
  simp [naiveProbs]

theorem naiveProbs_sum (odds : List ℚ)
    (hs : (odds.map fun x => 1 / x).sum ≠ 0) :
    (naiveProbs odds).sum = 1 := by
  unfold naiveProbs
  rw [sum_map_div]
  exact div_self hs

theorem naiveProbs_eq (l : List ℚ) :
    naiveProbs l = l.map fun x => (1 / x) / (l.map fun y => 1 / y).sum := by
  unfold naiveProbs
  rw [List.map_map]
  rfl

theorem mem_dedupFirst {α : Type} [DecidableEq α] (a : α) (l : List α) :
    a ∈ dedupFirst l ↔ a ∈ l := by
  induction l with
  | nil => simp [dedupFirst]
  | cons x xs ih =>
    simp only [dedupFirst, List.mem_cons, List.mem_filter, decide_eq_true_eq, ih]
    by_cases h : a = x <;> simp [h]

theorem sumOpt_append (l1 l2 : List (Option ℝ)) :
    sumOpt (l1 ++ l2) = sumOpt l1 + sumOpt l2 := by
  simp [sumOpt, List.filterMap_append]

theorem ftOtRows_eq_flatMap (rows : List PRow) :
    ftOtRows rows = rows.flatMap (ftOtPaths rows) := rfl

theorem sumOpt_filter_flatMap (L : List PRow) (g : PRow → List FtOtRow)
    (p : FtOtRow → Bool) :
    sumOpt (((L.flatMap g).filter p).map FtOtRow.prob) =
      (L.map (fun r => sumOpt (((g r).filter p).map FtOtRow.prob))).sum := by
  induction L with
  | nil => simp [sumOpt]
  | cons a as ih =>
    rw [List.flatMap_cons, List.filter_append, List.map_append, sumOpt_append,
      ih, List.map_cons, List.sum_cons]

theorem sum_single_key (t : PRow → ℝ) (key : PRow → Int × Int) (k : Int × Int)
    (b : PRow) (l : List PRow) (hb : b ∈ l) (hnd : (l.map key).Nodup)
    (hz : ∀ r ∈ l, key r ≠ k → t r = 0) (hbk : key b = k) :
    (l.map t).sum = t b := by
  induction l with
  | nil => cases hb
  | cons a as ih =>
    rw [List.map_cons] at hnd
    obtain ⟨hnotin, hndas⟩ := List.nodup_cons.mp hnd
    rcases List.mem_cons.mp hb with rfl | hbas
    · simp only [List.map_cons, List.sum_cons]
      have htail : (as.map t).sum = 0 := by
        apply List.sum_eq_zero
        intro x hx
        obtain ⟨r, hr, rfl⟩ := List.mem_map.mp hx
        apply hz r (List.mem_cons_of_mem _ hr)
        intro hk
        exact hnotin (List.mem_map.mpr ⟨r, hr, by rw [hk, ← hbk]⟩)
      rw [htail, add_zero]
    · have ha0 : t a = 0 := by
        apply hz a (List.mem_cons_self _ _)
        intro hk
        exact hnotin (List.mem_map.mpr ⟨b, hbas, by rw [hbk, hk]⟩)
      simp only [List.map_cons, List.sum_cons, ha0, zero_add]
      exact ih hbas hndas (fun r hr => hz r (List.mem_cons_of_mem _ hr))

/- Evaluation of the pipeline on the concrete games. -/

theorem prepare_gameQuotes : prepare_games_df gameQuotes = some gameRows := by
  unfold gameQuotes gameRows prepare_games_df naive_odds_to_probs naiveProbs
    filterValid mkPRow winnerOf
  norm_num [List.filter, List.zipWith]
  decide

theorem dist_gameRows : numGoalsDistAdj gameRows = [(0, 1/2), (1, 1/2)] := by
  unfold numGoalsDistAdj numGoalsDist dedupFirst groupProb maxNumGoals listMax
    adjustKey gameRows
  norm_num [List.filter]

theorem lambdaFT_gameRows : lambdaFT gameRows = 1/2 := by
  rw [lambdaFT, dist_gameRows]
  norm_num

theorem lambdaOT_gameRows : lambdaOT gameRows = 1/6 := by
  rw [lambdaOT, lambdaFT_gameRows]
  norm_num

theorem otRows_gameRows :
    otRows gameRows =
      [⟨0, 0, some (Real.exp (-(1/6)))⟩,
       ⟨1, 0, some (Real.exp (-(1/6)) * (1/6))⟩] := by
  simp only [otRows, dist_gameRows, lambdaOT_gameRows]
  norm_num [gameRows, List.flatMap, List.filter, poissonPmf]

theorem ftOtRows_gameRows :
    ftOtRows gameRows =
      [⟨0, 0, some (Real.exp (-(1/6)) * (1/2))⟩,
       ⟨1, 0, some (Real.exp (-(1/6)) * (1/12))⟩,
       ⟨1, 0, some (1/2)⟩] := by
  simp only [ftOtRows, otRows_gameRows]
  norm_num [gameRows, List.flatMap]
  constructor <;> ring

theorem ftOtAgg_gameRows :
    ftOtAgg gameRows =
      [(0, 0, Real.exp (-(1/6)) * (1/2)),
       (1, 0, Real.exp (-(1/6)) * (1/12) + 1/2)] := by
  simp only [ftOtAgg, aggProbAt, ftOtRows_gameRows]
  norm_num [dedupFirst, List.filter, sumOpt, List.filterMap_cons]

theorem otFinal_gameRows :
    otFinal gameRows =
      [(0, 0, Real.exp (-(1/6)) * (1/2)),
       (1, 0, Real.exp (-(1/6)) * (1/12) + 1/2)] := by
  simp only [otFinal, ftOtAgg_gameRows]
  norm_num [gameRows, List.flatMap, List.filter]

theorem prepare_ot_gameQuotes :
    prepare_games_df_ot gameQuotes =
      some [(0, 0, Real.exp (-(1/6)) * (1/2)),
            (1, 0, Real.exp (-(1/6)) * (1/12) + 1/2)] := by
  rw [prepare_games_df_ot, prepare_gameQuotes, Option.map_some', otFinal_gameRows]

theorem exp_neg_sixth_le : Real.exp (-(1/6 : ℝ)) ≤ 144/169 := by
  have h1 : (13/12 : ℝ) ≤ Real.exp (1/12) := by
    have := Real.add_one_le_exp (1/12 : ℝ)
    linarith
  have h2 : (169/144 : ℝ) ≤ Real.exp (1/6) := by
    have he : Real.exp (1/6 : ℝ) = Real.exp (1/12) * Real.exp (1/12) := by
      rw [← Real.exp_add]
      norm_num
    nlinarith [Real.exp_pos (1/12 : ℝ)]
  rw [Real.exp_neg]
  have h3 : (0 : ℝ) < 169/144 := by norm_num
  calc (Real.exp (1/6 : ℝ))⁻¹ ≤ (169/144 : ℝ)⁻¹ := inv_anti₀ h3 h2
    _ = 144/169 := by norm_num

theorem dist_gameRowsB : numGoalsDistAdj gameRowsB = [(2, 1/2), (1, 1/2)] := by
  unfold numGoalsDistAdj numGoalsDist dedupFirst groupProb maxNumGoals listMax
    adjustKey gameRowsB
  norm_num [List.filter]

theorem otRows_gameRowsB_scorelines :
    (otRows gameRowsB).map (fun o => (o.home_goals, o.away_goals)) =
      [(1, 1), (1, 0)] := by
  simp only [otRows, dist_gameRowsB]
  norm_num [gameRowsB, List.flatMap, List.filter]

/- Claim theorems. -/

/-- Claim C1 (amended part): on the apply_ot_adj = False branch the
probabilities attached by prepare_games_df to the quotes of a game sum to
exactly 1 whenever the game survives preparation with at least one row. -/
theorem C1_prob_sum_one_noadj (qs : List Quote) (rows : List PRow)
    (h : prepare_games_df qs = some rows) (hne : rows ≠ []) :
    (rows.map PRow.prob).sum = 1 := by
  unfold prepare_games_df naive_odds_to_probs at h
  by_cases h0 : ((filterValid qs).map Quote.odds).any (fun x => decide (x = 0)) = true
  · rw [if_pos h0] at h
    simp at h
  · rw [if_neg h0] at h
    by_cases hg : ((filterValid qs).map Quote.odds) ≠ [] ∧
        (((filterValid qs).map Quote.odds).map fun x => 1 / x).sum = 0
    · rw [if_pos hg] at h
      simp at h
    · rw [if_neg hg] at h
      simp only [Option.map_some', Option.some.injEq] at h
      subst h
      have hlen : (filterValid qs).length =
          (naiveProbs ((filterValid qs).map Quote.odds)).length := by
        rw [naiveProbs_length, List.length_map]
      rw [map_prob_zipWith _ _ hlen]
      apply naiveProbs_sum
      intro hzero
      apply hg
      refine ⟨?_, hzero⟩
      intro hnil
      apply hne
      have : filterValid qs = [] := by
        have := congrArg List.length hnil
        simpa using List.length_eq_zero.mp (by simpa using this)
      simp [this]

/-- Witness for C1_prob_sum_one_noadj at the concrete two-quote game. -/
theorem C1_prob_sum_one_noadj_witness :
    ((gameRows.map PRow.prob).sum : ℚ) = 1 :=
  C1_prob_sum_one_noadj gameQuotes gameRows prepare_gameQuotes
    (by simp [gameRows])

/-- Counterexample to claim C1: on a concrete game (draw 0 to 0 at odds 2
and 1 to 0 at odds 2) the probabilities returned with the overtime
adjustment applied sum to less than 1 - 1/1000000000, because the draw
mass is rescaled by the overtime Poisson mass of only the quoted
total-goals values and nothing renormalizes the result. -/
theorem C1_ot_sum_counterexample :
    prepare_games_df_ot gameQuotes ≠ none ∧
    ot_prob_sum gameQuotes < 1 - 1/1000000000 := by
  constructor
  · rw [prepare_ot_gameQuotes]
    simp
  · rw [ot_prob_sum, prepare_ot_gameQuotes]
    simp only [Option.getD_some, List.map_cons, List.map_nil, List.sum_cons,
      List.sum_nil]
    have h := exp_neg_sixth_le
    have hp := (Real.exp_pos (-(1/6 : ℝ))).le
    nlinarith

/-- Claim C2: within a game, every candidate bet and real outcome pair
appears in the cross join of analyze_games_df; its points are
points_per_exact on an exact hit, else points_per_goal_diff on a matching
goal difference, else points_per_winner on matching winner labels, else 0;
and every cross row contributes points times the probability of the real
outcome to the expected value. -/
theorem C2_points_and_ev (rows : List PRow) (ppe ppd ppw : ℚ) (b r : PRow)
    (hb : b ∈ rows) (hr : r ∈ rows) :
    ({ bet := b, real := r, points := pointsFor ppe ppd ppw b r,
       points_EV := pointsFor ppe ppd ppw b r * r.prob } : CrossRow) ∈
        analyze_games_df rows ppe ppd ppw ∧
    ((b.home_goals = r.home_goals ∧ b.away_goals = r.away_goals) →
        pointsFor ppe ppd ppw b r = ppe) ∧
    (¬(b.home_goals = r.home_goals ∧ b.away_goals = r.away_goals) →
        b.goals_diff = r.goals_diff → pointsFor ppe ppd ppw b r = ppd) ∧
    (¬(b.home_goals = r.home_goals ∧ b.away_goals = r.away_goals) →
        b.goals_diff ≠ r.goals_diff → winnerEq b.winner r.winner = true →
        pointsFor ppe ppd ppw b r = ppw) ∧
    (¬(b.home_goals = r.home_goals ∧ b.away_goals = r.away_goals) →
        b.goals_diff ≠ r.goals_diff → winnerEq b.winner r.winner = false →
        pointsFor ppe ppd ppw b r = 0) ∧
    (∀ c ∈ analyze_games_df rows ppe ppd ppw,
        c.points = pointsFor ppe ppd ppw c.bet c.real ∧
        c.points_EV = c.points * c.real.prob) := by
  refine ⟨?_, ?_, ?_, ?_, ?_, ?_⟩
  · exact List.mem_flatMap.mpr ⟨b, hb, List.mem_map.mpr ⟨r, hr, rfl⟩⟩
  · intro hx
    simp [pointsFor, hx]
  · intro hx hd
    simp [pointsFor, hx, hd]
  · intro hx hd hw
    simp [pointsFor, hx, hd, hw]
  · intro hx hd hw
    simp [pointsFor, hx, hd, hw]
  · intro c hc
    obtain ⟨b', _, hc'⟩ := List.mem_flatMap.mp hc
    obtain ⟨r', _, rfl⟩ := List.mem_map.mp hc'
    exact ⟨rfl, rfl⟩

/-- Witness for C2_points_and_ev at a concrete two-row game. -/
theorem C2_points_and_ev_witness :
    ({ bet := (⟨0, 0, 2, 0, 0, some Winner.draw, true, 1/2⟩ : PRow),
       real := (⟨1, 0, 2, 1, 1, some Winner.home, false, 1/2⟩ : PRow),
       points := pointsFor 4 2 1
         ⟨0, 0, 2, 0, 0, some Winner.draw, true, 1/2⟩
         ⟨1, 0, 2, 1, 1, some Winner.home, false, 1/2⟩,
       points_EV := pointsFor 4 2 1
         ⟨0, 0, 2, 0, 0, some Winner.draw, true, 1/2⟩
         ⟨1, 0, 2, 1, 1, some Winner.home, false, 1/2⟩ * (1/2) } : CrossRow) ∈
      analyze_games_df
        [⟨0, 0, 2, 0, 0, some Winner.draw, true, 1/2⟩,
         ⟨1, 0, 2, 1, 1, some Winner.home, false, 1/2⟩] 4 2 1 :=
  (C2_points_and_ev
    [⟨0, 0, 2, 0, 0, some Winner.draw, true, 1/2⟩,
     ⟨1, 0, 2, 1, 1, some Winner.home, false, 1/2⟩] 4 2 1
    ⟨0, 0, 2, 0, 0, some Winner.draw, true, 1/2⟩
    ⟨1, 0, 2, 1, 1, some Winner.home, false, 1/2⟩
    (List.mem_cons_self _ _)
    (List.mem_cons_of_mem _ (List.mem_cons_self _ _))).1

/-- Counterexample to claim C3: in the concrete game gameQuotes the
combined path through the 0 to 0 regulation draw and the 1 to 0 overtime
result carries probability exp(-1/6)/12, while the formula of the claim
(division by the Poisson pmf of the regulation goal count at the
regulation rate) gives a different value: the code divides by the
empirical aggregated probability of the total-goals bucket instead. -/
theorem C3_path_formula_counterexample :
    (ftOtRows gameRows)[1]? = some ⟨1, 0, some (Real.exp (-(1/6)) * (1/12))⟩ ∧
    Real.exp (-(1/6)) * (1/12) ≠
      spec_ot_path_contribution ((1/2 : ℚ) : ℝ) 1 0
        ((lambdaOT gameRows : ℚ) : ℝ) ((lambdaFT gameRows : ℚ) : ℝ) := by
  constructor
  · rw [ftOtRows_gameRows]
    rfl
  · rw [lambdaOT_gameRows, lambdaFT_gameRows]
    simp only [spec_ot_path_contribution, poissonPmf]
    norm_num
    intro h
    have hE1 := Real.exp_pos (-(1/6 : ℝ))
    have hE2 : Real.exp (-(1/2 : ℝ)) < 1 := by
      rw [Real.exp_lt_one_iff]
      norm_num
    have hE2p := Real.exp_pos (-(1/2 : ℝ))
    field_simp at h
    nlinarith

/-- Claim C3 (amended): the probability of one combined path, for a drawn
regulation row d and an overtime reinterpretation of a quoted row r, is
the draw probability times the quoted probability of r times the overtime
Poisson pmf at the total goals of r, divided by the empirical aggregated
probability of that total-goals bucket (not by the regulation Poisson
pmf, which the code computes but never uses). -/
theorem C3_path_formula_amended (rows : List PRow) (d r : PRow) (p : ℚ)
    (hd : d ∈ rows) (hdraw : d.is_draw = true) (hr : r ∈ rows)
    (hflt : (numGoalsDistAdj rows).filter (fun e => decide (e.1 = r.num_goals)) =
      [(r.num_goals, p)]) :
    (⟨d.home_goals + r.home_goals, d.away_goals + r.away_goals,
      some ((d.prob : ℝ) * ((r.prob : ℝ) *
        poissonPmf r.num_goals ((lambdaOT rows : ℚ) : ℝ) / ((p : ℚ) : ℝ)))⟩ :
      FtOtRow) ∈ ftOtRows rows := by
  have ho : (⟨r.home_goals, r.away_goals,
      some ((r.prob : ℝ) * poissonPmf r.num_goals ((lambdaOT rows : ℚ) : ℝ) /
        ((p : ℚ) : ℝ))⟩ : OtRow) ∈ otRows rows := by
    refine List.mem_flatMap.mpr ⟨r, hr, ?_⟩
    simp [hflt]
  rw [ftOtRows_eq_flatMap]
  refine List.mem_flatMap.mpr ⟨d, hd, ?_⟩
  unfold ftOtPaths
  rw [hdraw]
  rw [if_pos rfl]
  exact List.mem_map.mpr ⟨_, ho, rfl⟩

/-- Witness for C3_path_formula_amended on the concrete game gameRows. -/
theorem C3_path_formula_amended_witness :
    (⟨0 + 1, 0 + 0,
      some (((1/2 : ℚ) : ℝ) * (((1/2 : ℚ) : ℝ) *
        poissonPmf 1 ((lambdaOT gameRows : ℚ) : ℝ) / ((1/2 : ℚ) : ℝ)))⟩ :
      FtOtRow) ∈ ftOtRows gameRows :=
  C3_path_formula_amended gameRows
    ⟨0, 0, 2, 0, 0, some Winner.draw, true, 1/2⟩
    ⟨1, 0, 2, 1, 1, some Winner.home, false, 1/2⟩ (1/2)
    (List.mem_cons_self _ _) rfl
    (List.mem_cons_of_mem _ (List.mem_cons_self _ _))
    (by rw [dist_gameRows]; rfl)

/-- Counterexample to claim C4: in the concrete game gameQuotes the
quoted non-draw result 1 to 0 (winner home) has probability 1/2 without
the overtime adjustment, but probability exp(-1/6)/12 + 1/2 with it: the
combined path 0 to 0 after regulation plus 1 to 0 in overtime lands on
the same scoreline and its mass is added on top. -/
theorem C4_nondraw_changed_counterexample :
    prepare_games_df gameQuotes = some gameRows ∧
    gameRows[1]? = some ⟨1, 0, 2, 1, 1, some Winner.home, false, 1/2⟩ ∧
    prepare_games_df_ot gameQuotes =
      some [(0, 0, Real.exp (-(1/6)) * (1/2)),
            (1, 0, Real.exp (-(1/6)) * (1/12) + 1/2)] ∧
    (Real.exp (-(1/6)) * (1/12) + 1/2 : ℝ) ≠ ((1/2 : ℚ) : ℝ) := by
  refine ⟨prepare_gameQuotes, rfl, prepare_ot_gameQuotes, ?_⟩
  have hp := Real.exp_pos (-(1/6 : ℝ))
  intro h
  push_cast at h
  nlinarith

/-- Claim C4 (amended): the overtime adjustment preserves the probability
of a quoted non-draw scoreline provided no combined draw-plus-overtime
path reaches that scoreline; its aggregated output row then carries
exactly the unadjusted probability. -/
theorem C4_nondraw_preserved_when_unreachable (rows : List PRow) (b : PRow)
    (hb : b ∈ rows) (hnd : b.is_draw = false)
    (hnodup : (rows.map (fun r => (r.home_goals, r.away_goals))).Nodup)
    (hnoc : ∀ d ∈ rows, d.is_draw = true →
      ∀ q ∈ (otRows rows).map (fun o => (o.home_goals, o.away_goals)),
        (d.home_goals + q.1, d.away_goals + q.2) ≠
          (b.home_goals, b.away_goals)) :
    (b.home_goals, b.away_goals, (b.prob : ℝ)) ∈ otFinal rows := by
  have htb : sumOpt (((ftOtPaths rows b).filter (fun x =>
      decide (x.home_goals = b.home_goals ∧ x.away_goals = b.away_goals))).map
        FtOtRow.prob) = (b.prob : ℝ) := by
    unfold ftOtPaths
    rw [hnd]
    simp [sumOpt, List.filter]
  have hz : ∀ r ∈ rows, (r.home_goals, r.away_goals) ≠
      (b.home_goals, b.away_goals) →
      sumOpt (((ftOtPaths rows r).filter (fun x =>
        decide (x.home_goals = b.home_goals ∧ x.away_goals = b.away_goals))).map
          FtOtRow.prob) = 0 := by
    intro r hr hrk
    unfold ftOtPaths
    by_cases hdr : r.is_draw = true
    · rw [hdr, if_pos rfl]
      have hfil : (((otRows rows).map (fun o =>
          (⟨r.home_goals + o.home_goals, r.away_goals + o.away_goals,
            o.prob.map (fun x => (r.prob : ℝ) * x)⟩ : FtOtRow))).filter
          (fun x => decide (x.home_goals = b.home_goals ∧
            x.away_goals = b.away_goals))) = [] := by
        apply List.filter_eq_nil_iff.mpr
        intro x hx
        obtain ⟨o, ho, rfl⟩ := List.mem_map.mp hx
        simp only [decide_eq_true_eq, not_and]
        intro h1 h2
        exact hnoc r hr hdr (o.home_goals, o.away_goals)
          (List.mem_map.mpr ⟨o, ho, rfl⟩) (by rw [h1, h2])
      rw [hfil]
      simp [sumOpt]
    · rw [if_neg hdr]
      have hx : ¬(r.home_goals = b.home_goals ∧ r.away_goals = b.away_goals) := by
        intro hc
        exact hrk (by rw [hc.1, hc.2])
      simp [sumOpt, List.filter, hx]
  have hsum : aggProbAt rows (b.home_goals, b.away_goals) = (b.prob : ℝ) := by
    unfold aggProbAt
    rw [ftOtRows_eq_flatMap, sumOpt_filter_flatMap rows (ftOtPaths rows)]
    rw [sum_single_key _ (fun r => (r.home_goals, r.away_goals))
      (b.home_goals, b.away_goals) b rows hb hnodup hz rfl]
    exact htb
  have hpass : (⟨b.home_goals, b.away_goals, some (b.prob : ℝ)⟩ : FtOtRow) ∈
      ftOtRows rows := by
    rw [ftOtRows_eq_flatMap]
    refine List.mem_flatMap.mpr ⟨b, hb, ?_⟩
    unfold ftOtPaths
    rw [hnd, if_neg (by simp)]
    exact List.mem_singleton.mpr rfl
  have hkmem : (b.home_goals, b.away_goals) ∈
      dedupFirst ((ftOtRows rows).map (fun r => (r.home_goals, r.away_goals))) := by
    rw [mem_dedupFirst]
    exact List.mem_map.mpr ⟨_, hpass, rfl⟩
  have hagg : (b.home_goals, b.away_goals, (b.prob : ℝ)) ∈ ftOtAgg rows := by
    unfold ftOtAgg
    refine List.mem_map.mpr ⟨(b.home_goals, b.away_goals), hkmem, ?_⟩
    dsimp only
    rw [hsum]
  unfold otFinal
  refine List.mem_flatMap.mpr ⟨(b.home_goals, b.away_goals, (b.prob : ℝ)),
    hagg, ?_⟩
  dsimp only
  have hbrs : b ∈ rows.filter (fun r =>
      decide (r.home_goals = b.home_goals ∧ r.away_goals = b.away_goals)) :=
    List.mem_filter.mpr ⟨hb, by simp⟩
  cases hc : rows.filter (fun r =>
      decide (r.home_goals = b.home_goals ∧ r.away_goals = b.away_goals)) with
  | nil =>
    rw [hc] at hbrs
    cases hbrs
  | cons x xs =>
    rw [hc] at hbrs
    simp only [List.isEmpty_cons, Bool.false_eq_true, if_false]
    exact List.mem_map.mpr ⟨x, List.mem_cons_self _ _, rfl⟩

/-- Witness for C4_nondraw_preserved_when_unreachable on the game
gameRowsB, whose draw is 1 to 1 so no combined path reaches 1 to 0. -/
theorem C4_nondraw_preserved_when_unreachable_witness :
    ((1 : Int), (0 : Int), ((1/2 : ℚ) : ℝ)) ∈ otFinal gameRowsB :=
  C4_nondraw_preserved_when_unreachable gameRowsB
    ⟨1, 0, 2, 1, 1, some Winner.home, false, 1/2⟩
    (List.mem_cons_of_mem _ (List.mem_cons_self _ _)) rfl
    (by simp [gameRowsB]; decide)
    (by
      intro d hd hdraw q hq
      rw [otRows_gameRowsB_scorelines] at hq
      simp only [gameRowsB, List.mem_cons, List.not_mem_nil, or_false] at hd hq
      rcases hd with rfl | rfl
      · rcases hq with rfl | rfl <;> decide
      · exact Bool.noConfusion hdraw)

/-- Claim C5: the winner label of a prepared row is determined by the
goal difference, a draw label is assigned exactly when the difference is
zero and both goal counts are known (nonnegative), and the sentinel row
with goals -1 and -1 receives no winner label at all. -/
theorem C5_winner_pure_function (q : Quote) (p : ℚ) :
    (0 < (mkPRow q p).goals_diff → (mkPRow q p).winner = some Winner.home) ∧
    ((mkPRow q p).goals_diff < 0 → (mkPRow q p).winner = some Winner.away) ∧
    ((mkPRow q p).winner = some Winner.draw ↔
      (mkPRow q p).goals_diff = 0 ∧ 0 ≤ q.home_goals ∧ 0 ≤ q.away_goals) ∧
    (q.home_goals = -1 → q.away_goals = -1 → (mkPRow q p).winner = none) := by
  unfold mkPRow winnerOf
  dsimp only
  split_ifs with h1 h2 h3 <;> refine ⟨?_, ?_, ?_, ?_⟩ <;>
    simp_all <;> omega

/-- Witness for C5_winner_pure_function: the sentinel row gets no label. -/
theorem C5_winner_pure_function_witness :
    (mkPRow ⟨-1, -1, 7⟩ 0).winner = none :=
  (C5_winner_pure_function ⟨-1, -1, 7⟩ 0).2.2.2 rfl rfl

/-- Claim C6: for positive odds the naive conversion inverts the ranking
(strictly lower odds yield strictly higher probability), is invariant
under scaling all odds by one positive constant, and is exactly what
odds_to_probs returns on such input. -/
theorem C6_naive_ranking_and_scaling (odds : List ℚ) (c : ℚ) (hc : 0 < c)
    (hpos : ∀ x ∈ odds, 0 < x) (i j : ℕ) (oi oj pi pj : ℚ)
    (hoi : odds[i]? = some oi) (hoj : odds[j]? = some oj) (hij : oi < oj)
    (hpi : (naiveProbs odds)[i]? = some pi)
    (hpj : (naiveProbs odds)[j]? = some pj) :
    pj < pi ∧
    naiveProbs (odds.map fun x => c * x) = naiveProbs odds ∧
    naive_odds_to_probs odds = some (naiveProbs odds) := by
  have hne : odds ≠ [] := by
    intro h
    rw [h] at hoi
    simp at hoi
  have hSpos : 0 < (odds.map fun x => 1 / x).sum := by
    apply List.sum_pos
    · intro x hx
      obtain ⟨y, hy, rfl⟩ := List.mem_map.mp hx
      exact div_pos one_pos (hpos y hy)
    · simpa using hne
  have hoipos : 0 < oi := hpos oi (List.getElem?_mem hoi)
  refine ⟨?_, ?_, ?_⟩
  · have hpi' : pi = (1 / oi) / (odds.map fun y => 1 / y).sum := by
      rw [naiveProbs_eq, List.getElem?_map, hoi] at hpi
      simp only [Option.map_some', Option.some.injEq] at hpi
      exact hpi.symm
    have hpj' : pj = (1 / oj) / (odds.map fun y => 1 / y).sum := by
      rw [naiveProbs_eq, List.getElem?_map, hoj] at hpj
      simp only [Option.map_some', Option.some.injEq] at hpj
      exact hpj.symm
    rw [hpi', hpj']
    exact (div_lt_div_iff_of_pos_right hSpos).mpr
      (one_div_lt_one_div_of_lt hoipos hij)
  · have hmap : (odds.map fun x => c * x).map (fun y => 1 / y) =
        odds.map fun x => (1 / c) * (1 / x) := by
      rw [List.map_map]
      apply List.map_congr_left
      intro a _
      simp only [Function.comp]
      rw [one_div, mul_inv, one_div, one_div]
    rw [naiveProbs_eq, naiveProbs_eq, hmap, List.sum_map_mul_left,
      List.map_map]
    apply List.map_congr_left
    intro a _
    simp only [Function.comp]
    rw [show (1 : ℚ) / (c * a) = (1 / c) * (1 / a) by
      rw [one_div, mul_inv, one_div, one_div]]
    exact mul_div_mul_left _ _ (by positivity)
  · unfold naive_odds_to_probs
    have h1 : ¬ (odds.any (fun x => decide (x = 0)) = true) := by
      simp only [List.any_eq_true, decide_eq_true_eq, not_exists]
      rintro x ⟨hx, rfl⟩
      exact lt_irrefl 0 (hpos 0 hx)
    have h2 : ¬ (odds ≠ [] ∧ (odds.map fun x => 1 / x).sum = 0) := by
      rintro ⟨-, hs⟩
      exact absurd hs hSpos.ne'
    rw [if_neg h1, if_neg h2]

/-- Witness for C6_naive_ranking_and_scaling at the spec example odds. -/
theorem C6_naive_ranking_and_scaling_witness :
    ((1 / 4 : ℚ) / (1 / 3 + (1 / 4 + (1 / 5 + 0))) <
      (1 / 3 : ℚ) / (1 / 3 + (1 / 4 + (1 / 5 + 0)))) ∧
    naiveProbs ([3, 4, 5].map fun x => (2 : ℚ) * x) = naiveProbs [3, 4, 5] ∧
    naive_odds_to_probs [3, 4, 5] = some (naiveProbs [3, 4, 5]) :=
  C6_naive_ranking_and_scaling [3, 4, 5] 2 (by norm_num)
    (by intro x hx; fin_cases hx <;> norm_num) 0 1 3 4
    ((1 / 3 : ℚ) / (1 / 3 + (1 / 4 + (1 / 5 + 0))))
    ((1 / 4 : ℚ) / (1 / 3 + (1 / 4 + (1 / 5 + 0))))
    rfl rfl (by norm_num) rfl rfl

/-- Claim C8: for the degenerate game whose only quoted result is 0 to 0,
the fitted regulation rate lambda is 0, and the overtime branch of
prepare_games_df still succeeds and returns exactly the unadjusted
scorelines and probabilities instead of failing. -/
theorem C8_degenerate_lambda_skips_adjustment (c : ℚ) (hc : 0 < c) :
    prepare_games_df [⟨0, 0, c⟩] =
      some [⟨0, 0, c, 0, 0, some Winner.draw, true, 1⟩] ∧
    lambdaFT [⟨0, 0, c, 0, 0, some Winner.draw, true, 1⟩] = 0 ∧
    prepare_games_df_ot [⟨0, 0, c⟩] =
      (prepare_games_df [⟨0, 0, c⟩]).map
        (fun l => l.map (fun r => (r.home_goals, r.away_goals, (r.prob : ℝ)))) := by
  have hbase : prepare_games_df [⟨0, 0, c⟩] =
      some [⟨0, 0, c, 0, 0, some Winner.draw, true, 1⟩] := by
    unfold prepare_games_df naive_odds_to_probs naiveProbs filterValid mkPRow winnerOf
    norm_num [List.filter, List.zipWith, hc.le, hc.ne', hc.not_lt]
  have hlam : lambdaFT [(⟨0, 0, c, 0, 0, some Winner.draw, true, 1⟩ : PRow)] = 0 := by
    unfold lambdaFT numGoalsDistAdj numGoalsDist dedupFirst groupProb maxNumGoals
      listMax adjustKey
    norm_num [List.filter]
  have hdist : numGoalsDistAdj [(⟨0, 0, c, 0, 0, some Winner.draw, true, 1⟩ : PRow)] =
      [(0, 1)] := by
    unfold numGoalsDistAdj numGoalsDist dedupFirst groupProb maxNumGoals listMax adjustKey
    norm_num [List.filter]
  have hlamOT : lambdaOT [(⟨0, 0, c, 0, 0, some Winner.draw, true, 1⟩ : PRow)] = 0 := by
    rw [lambdaOT, hlam]
    norm_num
  have hot : otRows [(⟨0, 0, c, 0, 0, some Winner.draw, true, 1⟩ : PRow)] =
      [⟨0, 0, some 1⟩] := by
    simp only [otRows, hdist, hlamOT]
    norm_num [List.flatMap, List.filter, poissonPmf, Real.exp_zero]
  have hft : ftOtRows [(⟨0, 0, c, 0, 0, some Winner.draw, true, 1⟩ : PRow)] =
      [⟨0, 0, some 1⟩] := by
    simp only [ftOtRows, hot]
    norm_num [List.flatMap]
  have hagg : ftOtAgg [(⟨0, 0, c, 0, 0, some Winner.draw, true, 1⟩ : PRow)] =
      [(0, 0, 1)] := by
    simp only [ftOtAgg, aggProbAt, hft]
    norm_num [dedupFirst, List.filter, sumOpt, List.filterMap_cons]
  have hfin : otFinal [(⟨0, 0, c, 0, 0, some Winner.draw, true, 1⟩ : PRow)] =
      [(0, 0, 1)] := by
    simp only [otFinal, hagg]
    norm_num [List.flatMap, List.filter]
  refine ⟨hbase, hlam, ?_⟩
  rw [prepare_games_df_ot, hbase, Option.map_some', hfin, Option.map_some']
  norm_num

/-- Witness for C8_degenerate_lambda_skips_adjustment at odds 2. -/
theorem C8_degenerate_lambda_skips_adjustment_witness :
    prepare_games_df [⟨0, 0, 2⟩] =
      some [⟨0, 0, 2, 0, 0, some Winner.draw, true, 1⟩] ∧
    lambdaFT [⟨0, 0, 2, 0, 0, some Winner.draw, true, 1⟩] = 0 ∧
    prepare_games_df_ot [⟨0, 0, 2⟩] =
      (prepare_games_df [⟨0, 0, 2⟩]).map
        (fun l => l.map (fun r => (r.home_goals, r.away_goals, (r.prob : ℝ)))) :=
  C8_degenerate_lambda_skips_adjustment 2 (by norm_num)

/-- Claim C9: a quote with odds exactly 0 passes the validity filter of
prepare_games_df (which keeps odds >= 0.0), and the naive conversion of
its game then divides by zero, so preparation of that game is undefined. -/
theorem C9_zero_odds_undefined (qs : List Quote) (q : Quote)
    (hq : q ∈ qs) (h0 : q.odds = 0) :
    q ∈ filterValid qs ∧ prepare_games_df qs = none := by
  have hv : q ∈ filterValid qs :=
    List.mem_filter.mpr ⟨hq, by simp [h0]⟩
  refine ⟨hv, ?_⟩
  unfold prepare_games_df naive_odds_to_probs
  have hz : ((filterValid qs).map Quote.odds).any (fun x => decide (x = 0)) = true :=
    List.any_eq_true.mpr ⟨q.odds, List.mem_map.mpr ⟨q, hv, rfl⟩, by simp [h0]⟩
  rw [if_pos hz]
  rfl

/-- Witness for C9_zero_odds_undefined at a one-quote game with zero odds. -/
theorem C9_zero_odds_undefined_witness :
    (⟨0, 0, 0⟩ : Quote) ∈ filterValid [⟨0, 0, 0⟩] ∧
    prepare_games_df [⟨0, 0, 0⟩] = none :=
  C9_zero_odds_undefined [⟨0, 0, 0⟩] ⟨0, 0, 0⟩ (List.mem_cons_self _ _) rfl

/-- Claim C10: when both the candidate bet and the real outcome are the
sentinel any-other-score row (goals -1 and -1 on both sides), the goal
counts compare equal on both sides, so analyze_games_df classifies the
pair as an exact hit and awards points_per_exact. -/
theorem C10_sentinel_exact_hit (ppe ppd ppw : ℚ) (b r : PRow)
    (hb1 : b.home_goals = -1) (hb2 : b.away_goals = -1)
    (hr1 : r.home_goals = -1) (hr2 : r.away_goals = -1) :
    pointsFor ppe ppd ppw b r = ppe := by
  simp [pointsFor, hb1, hb2, hr1, hr2]

/-- Witness for C10_sentinel_exact_hit on concrete sentinel rows. -/
theorem C10_sentinel_exact_hit_witness :
    pointsFor 4 2 1 ⟨-1, -1, 10, 0, -2, none, false, 1/5⟩
      ⟨-1, -1, 10, 0, -2, none, false, 1/5⟩ = 4 :=
  C10_sentinel_exact_hit 4 2 1 _ _ rfl rfl rfl rfl

end SmartBetting
